import Mathlib

/-
Verification of the task-tracker CLI (src/main.py) against its specification.

The program is a single class `TaskManager` holding `self.tasks`, a list of
task records, loaded from a JSON backing file and rewritten after every
mutation.  We give a shallow embedding: each method becomes a pure function
from the task list (plus the parameters the Python runtime supplies: the
current timestamp string, and the outcome of the file-system write) to a
result record carrying the new task list, the disk contents written (if the
write succeeded), whether a save was attempted, the lines printed, the Python
return value and whether an exception escapes to the caller.
-/

namespace TaskTracker

/-- A task record, as built by `TaskManager.add_task` (src/main.py lines
39-51): fields `id`, `description`, `status`, `done`, `created_at`,
`updated_at`.  Records loaded from a hand-edited backing file may lack the
`done` field (`list_tasks` reads it with `task.get('done', False)`), so
`done` is an `Option Bool`. -/
structure Task where
  id : Int
  description : String
  status : String
  done : Option Bool
  created_at : String
  updated_at : String
deriving Repr, DecidableEq

/-- Outcome of reading the backing file inside
`TaskManager._load_tasks` (src/main.py lines 21-29): the file may be absent
(`os.path.exists` is false), opening/reading may raise `IOError`, parsing
may raise `json.JSONDecodeError`, reading may raise an exception outside
those two classes — e.g. `json.load` raises `UnicodeDecodeError` (a
`ValueError` that is neither a `JSONDecodeError` nor an `IOError`) when the
file's bytes are not valid UTF-8, or `RecursionError` on deeply nested
JSON — or a task list is parsed. -/
inductive ReadOutcome where
  | missing
  | ioError
  | parseError
  | decodeError
  | ok (tasks : List Task)
deriving Repr, DecidableEq

/-- Result of `_load_tasks`: whether an exception escapes to the caller,
and the list returned when one does not (`tasks` is meaningless when
`raised = true`: the method never returns on that path). -/
structure LoadResult where
  tasks : List Task
  raised : Bool
deriving Repr, DecidableEq

/-- Embedding of `TaskManager._load_tasks` (src/main.py lines 21-29):
missing file returns `[]`; `json.JSONDecodeError` and `IOError` are caught
by the `except` clause and `[]` is returned; an exception outside those two
classes (such as `UnicodeDecodeError` from a non-UTF-8 backing file) is not
caught and propagates to the caller; otherwise the parsed list is
returned. -/
def loadTasks : ReadOutcome → LoadResult
  | .missing => { tasks := [], raised := false }
  | .ioError => { tasks := [], raised := false }
  | .parseError => { tasks := [], raised := false }
  | .decodeError => { tasks := [], raised := true }
  | .ok ts => { tasks := ts, raised := false }

/-- Result of `_save_tasks`: the new disk contents when the write succeeded,
the lines printed, and whether an exception escapes to the caller. -/
structure SaveResult where
  disk : Option (List Task)
  output : List String
  raised : Bool
deriving Repr, DecidableEq

/-- Embedding of `TaskManager._save_tasks` (src/main.py lines 31-37).
`writeErr` is the outcome the file system supplies: `none` when
`open`/`json.dump` succeed, `some e` when they raise `IOError` with message
`e`.  The `except IOError` clause prints `"Error saving tasks: ..."` and
falls through, so `raised` is `false` on both paths. -/
def saveTasks (tasks : List Task) (writeErr : Option String) : SaveResult :=
  match writeErr with
  | none => { disk := some tasks, output := [], raised := false }
  | some e =>
      { disk := none, output := ["Error saving tasks: " ++ e], raised := false }

/-- Auxiliary for `_get_next_id`: the maximum of `acc` and the ids in `ts`
(Python's `max(task['id'] for task in self.tasks)` over a non-empty list). -/
def maxIdAux (acc : Int) (ts : List Task) : Int :=
  ts.foldl (fun a t => max a t.id) acc

/-- Embedding of `TaskManager._get_next_id` (src/main.py lines 109-113):
`1` when the list is empty, otherwise one more than the maximum existing
id. -/
def getNextId : List Task → Int
  | [] => 1
  | t :: ts => maxIdAux t.id ts + 1

/-- Result of a public `TaskManager` method: the new `self.tasks`, the disk
contents written (when a save happened and its write succeeded), whether
`_save_tasks` was called at all, the lines printed, the Python return value
(every method in src/main.py returns `None`, embedded as `none`), and whether
an exception escapes to the caller. -/
structure OpResult where
  tasks : List Task
  disk : Option (List Task)
  saveCalled : Bool
  output : List String
  ret : Option Int
  raised : Bool
deriving Repr, DecidableEq

/-- The record `add_task` builds (src/main.py lines 41-48): id from
`_get_next_id`, the given description, `status = "todo"`, `done = False`,
and both timestamps set to now. -/
def newTask (tasks : List Task) (description now : String) : Task :=
  { id := getNextId tasks, description := description, status := "todo",
    done := some false, created_at := now, updated_at := now }

/-- Embedding of `TaskManager.add_task` (src/main.py lines 39-51): builds
the record with `_get_next_id`, `status = "todo"`, `done = False` and the
current timestamps, appends it, saves, and prints a success message naming
the id.  There is no validation of `description`, and the method returns
`None`. -/
def addTask (tasks : List Task) (description now : String)
    (writeErr : Option String) : OpResult :=
  let task : Task := newTask tasks description now
  let tasks2 := tasks ++ [task]
  let sr := saveTasks tasks2 writeErr
  { tasks := tasks2, disk := sr.disk, saveCalled := true,
    output := sr.output ++
      ["Task added successfully (ID: " ++ toString task.id ++ ")"],
    ret := none, raised := false }

/-- Left-pad-free rendering helper for Python's `f"{x:<n}"`: the string
followed by enough spaces to reach width `n`. -/
def padRight (s : String) (n : Nat) : String :=
  s ++ String.mk (List.replicate (n - s.length) ' ')

/-- One line of `list_tasks` output (src/main.py line 65), with the
backward-compatibility default `task.get('done', False)`. -/
def renderTask (t : Task) : String :=
  let checkbox := if t.done.getD false then "[x]" else "[ ]"
  padRight (toString t.id) 4 ++ " " ++ padRight checkbox 6 ++ " " ++
    t.description

/-- Embedding of `TaskManager.list_tasks` (src/main.py lines 53-65): prints
"No tasks found." on an empty store, otherwise prints a header, a separator
and one line per task in list order; never mutates `self.tasks`, never
saves, and returns `None`. -/
def listTasks (tasks : List Task) : OpResult :=
  if tasks = [] then
    { tasks := tasks, disk := none, saveCalled := false,
      output := ["No tasks found."], ret := none, raised := false }
  else
    { tasks := tasks, disk := none, saveCalled := false,
      output := (padRight "ID" 4 ++ " " ++ padRight "Done" 6 ++ " " ++
          "Description") :: String.mk (List.replicate 50 '-') ::
          tasks.map renderTask,
      ret := none, raised := false }

/-- Embedding of `TaskManager.delete_task` (src/main.py lines 67-76):
`self.tasks` becomes the comprehension keeping tasks whose id differs; if
the length shrank, save and print success, else print not-found (and do not
save). -/
def deleteTask (tasks : List Task) (tid : Int)
    (writeErr : Option String) : OpResult :=
  let tasks2 := tasks.filter (fun t => t.id ≠ tid)
  if tasks2.length < tasks.length then
    let sr := saveTasks tasks2 writeErr
    { tasks := tasks2, disk := sr.disk, saveCalled := true,
      output := sr.output ++
        ["Task " ++ toString tid ++ " deleted successfully."],
      ret := none, raised := false }
  else
    { tasks := tasks2, disk := none, saveCalled := false,
      output := ["Task with ID " ++ toString tid ++ " not found."],
      ret := none, raised := false }

/-- Embedding of `TaskManager._find_task` (src/main.py lines 102-107): the
first task whose id matches, scanning in list order. -/
def findTask (tasks : List Task) (tid : Int) : Option Task :=
  tasks.find? (fun t => t.id = tid)

/-- Replace the first task whose id is `tid` by `f` of it.  This is how the
in-place mutation of the dict returned by `_find_task` acts on `self.tasks`:
that dict is the first matching element of the list. -/
def updateFirst (tasks : List Task) (tid : Int) (f : Task → Task) :
    List Task :=
  match tasks with
  | [] => []
  | t :: ts =>
      if t.id = tid then f t :: ts else t :: updateFirst ts tid f

/-- The mutation `mark_done` performs on the found task (src/main.py lines
82-84). -/
def markDoneTask (now : String) (t : Task) : Task :=
  { t with done := some true, status := "done", updated_at := now }

/-- The mutation `mark_undone` performs on the found task (src/main.py lines
94-96). -/
def markUndoneTask (now : String) (t : Task) : Task :=
  { t with done := some false, status := "todo", updated_at := now }

/-- Embedding of `TaskManager.mark_done` (src/main.py lines 78-88): find the
first task with the id; if found, set `done = True`, `status = 'done'`,
stamp `updated_at`, save and print success; else print not-found without
saving. -/
def markDone (tasks : List Task) (tid : Int) (now : String)
    (writeErr : Option String) : OpResult :=
  match findTask tasks tid with
  | some _ =>
      let tasks2 := updateFirst tasks tid (markDoneTask now)
      let sr := saveTasks tasks2 writeErr
      { tasks := tasks2, disk := sr.disk, saveCalled := true,
        output := sr.output ++
          ["Task " ++ toString tid ++ " marked as done."],
        ret := none, raised := false }
  | none =>
      { tasks := tasks, disk := none, saveCalled := false,
        output := ["Task with ID " ++ toString tid ++ " not found."],
        ret := none, raised := false }

/-- Embedding of `TaskManager.mark_undone` (src/main.py lines 90-100):
symmetric to `markDone` with `done = False`, `status = 'todo'`. -/
def markUndone (tasks : List Task) (tid : Int) (now : String)
    (writeErr : Option String) : OpResult :=
  match findTask tasks tid with
  | some _ =>
      let tasks2 := updateFirst tasks tid (markUndoneTask now)
      let sr := saveTasks tasks2 writeErr
      { tasks := tasks2, disk := sr.disk, saveCalled := true,
        output := sr.output ++
          ["Task " ++ toString tid ++ " marked as undone."],
        ret := none, raised := false }
  | none =>
      { tasks := tasks, disk := none, saveCalled := false,
        output := ["Task with ID " ++ toString tid ++ " not found."],
        ret := none, raised := false }

/-- A user-level operation for stating properties of operation sequences. -/
inductive Op where
  | add (description : String)
  | del (tid : Int)
deriving Repr, DecidableEq

/-- Whether an operation is an `add`. -/
def Op.isAdd : Op → Bool
  | .add _ => true
  | .del _ => false

/-- Run a sequence of operations from a starting store (timestamps fixed,
writes succeeding), returning the final store and the list of ids assigned
by the `add` operations, in order.  Each `add` assigns `getNextId` of the
store it runs on, exactly as `addTask` does. -/
def runOps (tasks : List Task) : List Op → List Task × List Int
  | [] => (tasks, [])
  | Op.add d :: ops =>
      let r := addTask tasks d "t" none
      let rest := runOps r.tasks ops
      (rest.1, getNextId tasks :: rest.2)
  | Op.del tid :: ops =>
      let r := deleteTask tasks tid none
      runOps r.tasks ops

/-- Status/done-flag agreement for one task: when the `done` flag is
present, it is `true` exactly when `status` is `"done"`. -/
def consistentB (t : Task) : Bool :=
  match t.done with
  | none => true
  | some b => (t.status == "done") == b

/-- The claims' notion of an empty or whitespace-only description. -/
def whitespaceOnly (s : String) : Bool :=
  s.data.all Char.isWhitespace

/-- Sample task with id 1, used in concrete witnesses. -/
def sampleA : Task :=
  { id := 1, description := "alpha", status := "todo", done := some false,
    created_at := "t", updated_at := "t" }

/-- A second sample task that also has id 1 (as a hand-edited backing file
can produce), used in concrete witnesses. -/
def sampleB : Task :=
  { id := 1, description := "beta", status := "todo", done := some false,
    created_at := "t", updated_at := "t" }

/-- Sample task with id 2, used in concrete witnesses. -/
def sampleC : Task :=
  { id := 2, description := "gamma", status := "done", done := some true,
    created_at := "t", updated_at := "t" }

/- ## Helper lemmas -/

lemma le_maxIdAux (ts : List Task) : ∀ acc : Int, acc ≤ maxIdAux acc ts := by
  induction ts with
  | nil => intro acc; simp [maxIdAux]
  | cons t ts ih =>
      intro acc
      have h1 : acc ≤ max acc t.id := le_max_left _ _
      have h2 : max acc t.id ≤ maxIdAux (max acc t.id) ts := ih _
      have heq : maxIdAux acc (t :: ts) = maxIdAux (max acc t.id) ts := rfl
      rw [heq]
      exact le_trans h1 h2

lemma mem_le_maxIdAux (ts : List Task) :
    ∀ (acc : Int) (u : Task), u ∈ ts → u.id ≤ maxIdAux acc ts := by
  induction ts with
  | nil => intro acc u hu; cases hu
  | cons t ts ih =>
      intro acc u hu
      have heq : maxIdAux acc (t :: ts) = maxIdAux (max acc t.id) ts := rfl
      rw [heq]
      rcases List.mem_cons.mp hu with h | h
      · subst h
        exact le_trans (le_max_right _ _) (le_maxIdAux ts _)
      · exact ih _ u h

/-- Every id already in the store is strictly below the id `_get_next_id`
produces. -/
lemma id_lt_getNextId (tasks : List Task) (t : Task) (h : t ∈ tasks) :
    t.id < getNextId tasks := by
  cases tasks with
  | nil => cases h
  | cons a ts =>
      have : t.id ≤ maxIdAux a.id ts := by
        rcases List.mem_cons.mp h with h1 | h1
        · subst h1; exact le_maxIdAux ts _
        · exact mem_le_maxIdAux ts _ t h1
      calc t.id ≤ maxIdAux a.id ts := this
        _ < maxIdAux a.id ts + 1 := lt_add_one _
        _ = getNextId (a :: ts) := rfl

/-- The task list `add_task` produces, independent of the write outcome. -/
lemma addTask_tasks_eq (tasks : List Task) (d now : String)
    (werr : Option String) :
    (addTask tasks d now werr).tasks = tasks ++ [newTask tasks d now] := rfl

/-- After an `add`, the next id is strictly larger than before. -/
lemma getNextId_lt_after_add (tasks : List Task) (d now : String)
    (werr : Option String) :
    getNextId tasks < getNextId ((addTask tasks d now werr).tasks) := by
  have hmem : newTask tasks d now ∈ (addTask tasks d now werr).tasks := by
    rw [addTask_tasks_eq]
    exact List.mem_append_right _ (List.mem_singleton_self _)
  have h := id_lt_getNextId _ _ hmem
  simpa [newTask] using h

/-- In an add-only run, every assigned id is at least `getNextId` of the
starting store. -/
lemma runOps_add_lb :
    ∀ (ops : List Op) (tasks : List Task),
      (∀ op ∈ ops, op.isAdd = true) →
      ∀ i ∈ (runOps tasks ops).2, getNextId tasks ≤ i := by
  intro ops
  induction ops with
  | nil => intro tasks _ i hi; simp [runOps] at hi
  | cons op ops ih =>
      intro tasks h i hi
      cases op with
      | del tid =>
          have := h (Op.del tid) (List.mem_cons_self _ _)
          simp [Op.isAdd] at this
      | add d =>
          simp only [runOps] at hi
          rcases List.mem_cons.mp hi with h1 | h1
          · subst h1; exact le_refl _
          · have hlt := getNextId_lt_after_add tasks d "t" none
            have hrest := ih ((addTask tasks d "t" none).tasks)
              (fun op hop => h op (List.mem_cons_of_mem _ hop)) i h1
            exact le_trans (le_of_lt hlt) hrest

/-- In an add-only run, the assigned ids are pairwise strictly
increasing. -/
lemma runOps_add_pairwise :
    ∀ (ops : List Op) (tasks : List Task),
      (∀ op ∈ ops, op.isAdd = true) →
      ((runOps tasks ops).2).Pairwise (· < ·) := by
  intro ops
  induction ops with
  | nil => intro tasks _; simp [runOps]
  | cons op ops ih =>
      intro tasks h
      cases op with
      | del tid =>
          have := h (Op.del tid) (List.mem_cons_self _ _)
          simp [Op.isAdd] at this
      | add d =>
          simp only [runOps]
          refine List.Pairwise.cons ?_ ?_
          · intro i hi
            have hlt := getNextId_lt_after_add tasks d "t" none
            have hrest := runOps_add_lb ops ((addTask tasks d "t" none).tasks)
              (fun op hop => h op (List.mem_cons_of_mem _ hop)) i hi
            exact lt_of_lt_of_le hlt hrest
          · exact ih ((addTask tasks d "t" none).tasks)
              (fun op hop => h op (List.mem_cons_of_mem _ hop))

/-- Every element of `updateFirst tasks tid f` is either an original
element or `f` of an original element. -/
lemma mem_updateFirst (tid : Int) (f : Task → Task) :
    ∀ (tasks : List Task) (u : Task), u ∈ updateFirst tasks tid f →
      u ∈ tasks ∨ ∃ t, t ∈ tasks ∧ u = f t := by
  intro tasks
  induction tasks with
  | nil => intro u hu; simp [updateFirst] at hu
  | cons a ts ih =>
      intro u hu
      by_cases h : a.id = tid
      · rw [updateFirst, if_pos h] at hu
        rcases List.mem_cons.mp hu with h1 | h1
        · exact Or.inr ⟨a, List.mem_cons_self _ _, h1⟩
        · exact Or.inl (List.mem_cons_of_mem _ h1)
      · rw [updateFirst, if_neg h] at hu
        rcases List.mem_cons.mp hu with h1 | h1
        · exact Or.inl (h1 ▸ List.mem_cons_self _ _)
        · rcases ih u h1 with h2 | ⟨t, ht, rfl⟩
          · exact Or.inl (List.mem_cons_of_mem _ h2)
          · exact Or.inr ⟨t, List.mem_cons_of_mem _ ht, rfl⟩

/-- When no task before `t` matches and `t` does, `updateFirst` rewrites
exactly `t` and leaves everything after it alone. -/
lemma updateFirst_append (tid : Int) (f : Task → Task) :
    ∀ (pre : List Task) (t : Task) (post : List Task),
      (∀ u ∈ pre, u.id ≠ tid) → t.id = tid →
      updateFirst (pre ++ t :: post) tid f = pre ++ f t :: post := by
  intro pre
  induction pre with
  | nil =>
      intro t post _ ht
      simp [updateFirst, ht]
  | cons a pre ih =>
      intro t post hpre ht
      have ha : a.id ≠ tid := hpre a (List.mem_cons_self _ _)
      have h2 : ∀ u ∈ pre, u.id ≠ tid :=
        fun u hu => hpre u (List.mem_cons_of_mem _ hu)
      have hstep : updateFirst ((a :: pre) ++ t :: post) tid f
          = a :: updateFirst (pre ++ t :: post) tid f := by
        simp [updateFirst, ha]
      rw [hstep, ih t post h2 ht, List.cons_append]

/-- When no task before `t` matches and `t` does, `_find_task` returns
exactly `t`. -/
lemma findTask_append (tid : Int) :
    ∀ (pre : List Task) (t : Task) (post : List Task),
      (∀ u ∈ pre, u.id ≠ tid) → t.id = tid →
      findTask (pre ++ t :: post) tid = some t := by
  intro pre
  induction pre with
  | nil =>
      intro t post _ ht
      simp [findTask, List.find?, ht]
  | cons a pre ih =>
      intro t post hpre ht
      have ha : a.id ≠ tid := hpre a (List.mem_cons_self _ _)
      have h2 : ∀ u ∈ pre, u.id ≠ tid :=
        fun u hu => hpre u (List.mem_cons_of_mem _ hu)
      simp only [findTask, List.cons_append, List.find?]
      rw [decide_eq_false ha]
      exact ih t post h2 ht

/-- When no task has the id, the deletion comprehension keeps the whole
list. -/
lemma filter_ne_eq_self (tasks : List Task) (tid : Int)
    (h : ∀ t ∈ tasks, t.id ≠ tid) :
    tasks.filter (fun t => t.id ≠ tid) = tasks := by
  apply List.filter_eq_self.mpr
  intro a ha
  simpa using h a ha

/-- The deletion comprehension over a store whose only match is `t`. -/
lemma filter_ne_append (pre : List Task) (t : Task) (post : List Task)
    (tid : Int) (hpre : ∀ u ∈ pre, u.id ≠ tid) (ht : t.id = tid)
    (hpost : ∀ u ∈ post, u.id ≠ tid) :
    (pre ++ t :: post).filter (fun u => u.id ≠ tid) = pre ++ post := by
  rw [List.filter_append, filter_ne_eq_self pre tid hpre, List.filter_cons]
  have : (decide (t.id ≠ tid)) = false := by simp [ht]
  rw [this]
  simp only [Bool.false_eq_true, if_false]
  rw [filter_ne_eq_self post tid hpost]

/- ## Claim theorems -/

/-- Claim C1, counterexample: after `add "a"` (id 1), `add "b"` (id 2),
`delete 2`, a further `add "c"` is assigned id 2 again, because
`_get_next_id` is one more than the current maximum and the maximum dropped
when task 2 was deleted.  The assigned-id sequence is `[1, 2, 2]`, so an id
is assigned twice, refuting "no id is ever assigned twice ... even after a
task is deleted". -/
theorem c1_id_reuse_counterexample :
    (runOps [] [Op.add "a", Op.add "b", Op.del 2, Op.add "c"]).2 = [1, 2, 2]
    ∧ ¬ ((runOps [] [Op.add "a", Op.add "b", Op.del 2, Op.add "c"]).2).Nodup := by
  refine ⟨rfl, ?_⟩
  intro h
  have h2 : ([1, 2, 2] : List Int).Nodup := by
    have heq : (runOps [] [Op.add "a", Op.add "b", Op.del 2, Op.add "c"]).2
        = [1, 2, 2] := rfl
    rwa [heq] at h
  simp at h2

/-- Claim C1, amended: for every sequence of add operations with no
interleaved deletes, from any starting store, the assigned ids are pairwise
strictly increasing (hence never repeated).  With interleaved deletes an id
can be reassigned, namely after the task holding the maximum id is
deleted. -/
theorem c1_ids_increase_without_deletes
    (tasks : List Task) (ops : List Op)
    (h : ∀ op ∈ ops, op.isAdd = true) :
    ((runOps tasks ops).2).Pairwise (· < ·) :=
  runOps_add_pairwise ops tasks h

/-- Claim C1, witness: the amended theorem applied to two adds from the
empty store. -/
theorem c1_ids_increase_witness :
    (∀ op ∈ [Op.add "a", Op.add "b"], op.isAdd = true)
    ∧ ((runOps [] [Op.add "a", Op.add "b"]).2).Pairwise (· < ·) :=
  ⟨by decide, c1_ids_increase_without_deletes [] [Op.add "a", Op.add "b"]
    (by decide)⟩

/-- Claim C2, counterexample: `add_task` performs no validation, so a
whitespace-only description is accepted: starting from the empty store,
`add "   "` appends a task (the store has length 1 afterwards) and no
exception is raised, refuting "signals a ValidationError and does not add a
task". -/
theorem c2_no_validation_counterexample :
    whitespaceOnly "   " = true
    ∧ (addTask [] "   " "t0" none).tasks.length = 1
    ∧ (addTask [] "   " "t0" none).raised = false := ⟨by decide, rfl, rfl⟩

/-- Claim C2, amended: `add_task` performs no validation of the
description: even an empty or whitespace-only description is accepted, the
task is appended to the store, and no error is signalled (there is no
ValidationError in the program). -/
theorem c2_whitespace_accepted
    (tasks : List Task) (desc now : String) (werr : Option String)
    (_h : whitespaceOnly desc = true) :
    (addTask tasks desc now werr).tasks = tasks ++ [newTask tasks desc now]
    ∧ (addTask tasks desc now werr).raised = false :=
  ⟨addTask_tasks_eq tasks desc now werr, rfl⟩

/-- Claim C2, witness: the amended theorem applied to a single-space
description on the empty store. -/
theorem c2_whitespace_accepted_witness :
    whitespaceOnly " " = true
    ∧ (addTask [] " " "t0" none).tasks = [] ++ [newTask [] " " "t0"] :=
  ⟨by decide, (c2_whitespace_accepted [] " " "t0" none (by decide)).1⟩

/-- Claim C3, code bug: `list_tasks` leaves the store unchanged and never
saves (the side-effect-free half of the claim holds), but it prints the
tasks and returns `None` instead of returning a snapshot sequence, which
contradicts the repository's own tests
(`test_list_tasks_returns_list_of_strings` calls
`tasks = self.task_manager.list_tasks()` and asserts it is a list). -/
theorem c3_list_returns_none (tasks : List Task) :
    (listTasks tasks).tasks = tasks
    ∧ (listTasks tasks).saveCalled = false
    ∧ (listTasks tasks).disk = none
    ∧ (listTasks tasks).ret = none := by
  unfold listTasks
  split
  · exact ⟨rfl, rfl, rfl, rfl⟩
  · exact ⟨rfl, rfl, rfl, rfl⟩

/-- Claim C4, counterexample: when the backing-file write fails,
`_save_tasks` catches the `IOError` and only prints a message; no exception
reaches the caller (`raised = false`), refuting "signals a PersistenceError
to the caller". -/
theorem c4_save_swallows_error_counterexample :
    (saveTasks [] (some "disk full")).raised = false
    ∧ (saveTasks [] (some "disk full")).disk = none
    ∧ (saveTasks [] (some "disk full")).output
        = ["Error saving tasks: " ++ "disk full"] := ⟨rfl, rfl, rfl⟩

/-- Claim C4, amended: when the backing-file write fails, `_save_tasks`
prints "Error saving tasks: ..." and returns normally — no exception is
raised to the caller and the disk is not updated; the in-memory sequence is
still updated regardless of write success (each mutating operation produces
the same task list whether or not the write succeeds). -/
theorem c4_save_failure_behaviour
    (tasks : List Task) (werr : Option String) (desc now : String)
    (tid : Int) :
    (saveTasks tasks werr).raised = false
    ∧ (∀ e, werr = some e →
        (saveTasks tasks werr).output = ["Error saving tasks: " ++ e]
        ∧ (saveTasks tasks werr).disk = none)
    ∧ (addTask tasks desc now werr).tasks = (addTask tasks desc now none).tasks
    ∧ (deleteTask tasks tid werr).tasks = (deleteTask tasks tid none).tasks
    ∧ (markDone tasks tid now werr).tasks
        = (markDone tasks tid now none).tasks
    ∧ (markUndone tasks tid now werr).tasks
        = (markUndone tasks tid now none).tasks := by
  refine ⟨?_, ?_, rfl, ?_, ?_, ?_⟩
  · cases werr <;> rfl
  · intro e he; subst he; exact ⟨rfl, rfl⟩
  · unfold deleteTask
    by_cases hc : (tasks.filter (fun t => t.id ≠ tid)).length < tasks.length
    · simp only [if_pos hc]
    · simp only [if_neg hc]
  · unfold markDone
    cases findTask tasks tid <;> rfl
  · unfold markUndone
    cases findTask tasks tid <;> rfl

/-- Claim C4, witness: the amended theorem applied to a failing write on a
one-task store. -/
theorem c4_save_failure_witness :
    (saveTasks [sampleA] (some "boom")).output
        = ["Error saving tasks: " ++ "boom"]
    ∧ (saveTasks [sampleA] (some "boom")).disk = none :=
  (c4_save_failure_behaviour [sampleA] (some "boom") "d" "n" 0).2.1 "boom" rfl

/-- Claim C5: when no task in the store has the requested id,
`delete_task` leaves the store unchanged, does not call `_save_tasks` (so
nothing is persisted), prints the not-found message — the program's
NotFoundError signal — and raises nothing. -/
theorem c5_delete_not_found
    (tasks : List Task) (tid : Int) (werr : Option String)
    (h : ∀ t ∈ tasks, t.id ≠ tid) :
    (deleteTask tasks tid werr).tasks = tasks
    ∧ (deleteTask tasks tid werr).saveCalled = false
    ∧ (deleteTask tasks tid werr).disk = none
    ∧ (deleteTask tasks tid werr).output
        = ["Task with ID " ++ toString tid ++ " not found."]
    ∧ (deleteTask tasks tid werr).raised = false := by
  have hfil := filter_ne_eq_self tasks tid h
  have hfil2 : List.filter (fun t => !decide (t.id = tid)) tasks = tasks := by
    simpa [decide_not] using hfil
  refine ⟨?_, ?_, ?_, ?_, ?_⟩ <;> simp [deleteTask, hfil2]

/-- Claim C5, witness: deleting id 5 from a store holding only id 1. -/
theorem c5_delete_not_found_witness :
    (∀ t ∈ [sampleA], t.id ≠ 5)
    ∧ (deleteTask [sampleA] 5 none).tasks = [sampleA]
    ∧ (deleteTask [sampleA] 5 none).saveCalled = false :=
  ⟨by decide, (c5_delete_not_found [sampleA] 5 none (by decide)).1,
    (c5_delete_not_found [sampleA] 5 none (by decide)).2.1⟩

/-- Claim C6, code bug: `_load_tasks` recovers silently into an empty
store on a missing file, an I/O failure and a JSON parse error, exactly as
the claim says — but on malformed content whose bytes are not valid UTF-8,
`json.load` raises `UnicodeDecodeError`, which
`except (json.JSONDecodeError, IOError)` does not catch, so the exception
propagates to the caller and "load() never raises" fails.  The code's own
`try`/`except` shows the silent-recovery intent; its exception coverage is
the slip. -/
theorem c6_load_raises_on_decode_error :
    (loadTasks ReadOutcome.decodeError).raised = true
    ∧ (loadTasks ReadOutcome.missing).raised = false
    ∧ (loadTasks ReadOutcome.missing).tasks = []
    ∧ (loadTasks ReadOutcome.ioError).raised = false
    ∧ (loadTasks ReadOutcome.ioError).tasks = []
    ∧ (loadTasks ReadOutcome.parseError).raised = false
    ∧ (loadTasks ReadOutcome.parseError).tasks = [] :=
  ⟨rfl, rfl, rfl, rfl, rfl, rfl, rfl⟩

/-- Claim C7, counterexample: on the empty store, `add "Buy milk"` assigns
id 1 (the appended task has id 1) but the method returns `None`, not the
assigned id, refuting "returns the assigned id" (the id is only printed). -/
theorem c7_returns_none_counterexample :
    (addTask [] "Buy milk" "t0" none).tasks.map Task.id = [1]
    ∧ (addTask [] "Buy milk" "t0" none).ret = none
    ∧ (addTask [] "Buy milk" "t0" none).ret ≠ some 1 := by
  refine ⟨rfl, rfl, ?_⟩
  intro hcontra
  exact Option.noConfusion hcontra

/-- Claim C7, amended: `add_task` appends to the end of the store exactly
one task whose id is `_get_next_id` of the previous store — which is 1 on
the empty store and strictly greater than every existing id otherwise, i.e.
1 + the maximum existing id — with status `todo`; it prints a success
message naming the assigned id and returns `None` instead of returning the
id. -/
theorem c7_add_spec
    (tasks : List Task) (desc now : String) (werr : Option String) :
    (addTask tasks desc now werr).tasks = tasks ++ [newTask tasks desc now]
    ∧ (newTask tasks desc now).status = "todo"
    ∧ (newTask tasks desc now).id = getNextId tasks
    ∧ (tasks = [] → getNextId tasks = 1)
    ∧ (∀ t ∈ tasks, t.id < getNextId tasks)
    ∧ (addTask tasks desc now werr).ret = none
    ∧ ("Task added successfully (ID: " ++ toString (getNextId tasks) ++ ")")
        ∈ (addTask tasks desc now werr).output := by
  refine ⟨rfl, rfl, rfl, ?_, ?_, rfl, ?_⟩
  · intro he; subst he; rfl
  · exact fun t ht => id_lt_getNextId tasks t ht
  · cases werr <;> simp [addTask, saveTasks, newTask]

/-- Claim C7, witness: the amended theorem applied to the empty store. -/
theorem c7_add_spec_witness :
    (addTask [] "Buy milk" "t0" none).tasks = [] ++ [newTask [] "Buy milk" "t0"]
    ∧ getNextId ([] : List Task) = 1 :=
  ⟨(c7_add_spec [] "Buy milk" "t0" none).1,
    (c7_add_spec [] "Buy milk" "t0" none).2.2.2.1 rfl⟩

/-- Claim C8: when exactly one task holds the id — the store is
`pre ++ t :: post` with `t` the only match — `delete_task` removes exactly
`t`, leaving `pre ++ post`: every other task is kept as the same record in
the same relative order, and the deletion is persisted. -/
theorem c8_delete_unique_frame
    (pre : List Task) (t : Task) (post : List Task) (tid : Int)
    (werr : Option String)
    (ht : t.id = tid) (hpre : ∀ u ∈ pre, u.id ≠ tid)
    (hpost : ∀ u ∈ post, u.id ≠ tid) :
    (deleteTask (pre ++ t :: post) tid werr).tasks = pre ++ post
    ∧ (deleteTask (pre ++ t :: post) tid werr).saveCalled = true := by
  have hfil := filter_ne_append pre t post tid hpre ht hpost
  have hfil2 : List.filter (fun u => !decide (u.id = tid)) (pre ++ t :: post)
      = pre ++ post := by
    simpa [decide_not] using hfil
  have hlen : (pre ++ post).length < (pre ++ t :: post).length := by
    simp
  refine ⟨?_, ?_⟩ <;> simp [deleteTask, hfil2, hlen]

/-- Claim C8, witness: deleting id 2 from a store `[id 1, id 2, id 1]`
removes exactly the middle task. -/
theorem c8_delete_unique_frame_witness :
    sampleC.id = 2
    ∧ (deleteTask ([sampleA] ++ sampleC :: [sampleB]) 2 none).tasks
        = [sampleA] ++ [sampleB] :=
  ⟨rfl, (c8_delete_unique_frame [sampleA] sampleC [sampleB] 2 none rfl
    (by decide) (by decide)).1⟩

/-- `mark_done` either leaves the store unchanged (id not found) or
rewrites the first match. -/
lemma markDone_tasks_cases (tasks : List Task) (tid : Int) (now : String)
    (werr : Option String) :
    (markDone tasks tid now werr).tasks = tasks
    ∨ (markDone tasks tid now werr).tasks
        = updateFirst tasks tid (markDoneTask now) := by
  unfold markDone
  cases findTask tasks tid with
  | none => exact Or.inl rfl
  | some t => exact Or.inr rfl

/-- `mark_undone` either leaves the store unchanged (id not found) or
rewrites the first match. -/
lemma markUndone_tasks_cases (tasks : List Task) (tid : Int) (now : String)
    (werr : Option String) :
    (markUndone tasks tid now werr).tasks = tasks
    ∨ (markUndone tasks tid now werr).tasks
        = updateFirst tasks tid (markUndoneTask now) := by
  unfold markUndone
  cases findTask tasks tid with
  | none => exact Or.inl rfl
  | some t => exact Or.inr rfl

/-- Claim C9: the operations `add_task`, `mark_done` and `mark_undone` all
preserve the invariant that on every task carrying the `done` flag, the flag
agrees with `status` (`done = True` iff `status = "done"`). -/
theorem c9_status_done_consistency
    (tasks : List Task) (desc now : String) (tid : Int)
    (werr : Option String)
    (h : ∀ t ∈ tasks, consistentB t = true) :
    (∀ t ∈ (addTask tasks desc now werr).tasks, consistentB t = true)
    ∧ (∀ t ∈ (markDone tasks tid now werr).tasks, consistentB t = true)
    ∧ (∀ t ∈ (markUndone tasks tid now werr).tasks, consistentB t = true) := by
  refine ⟨?_, ?_, ?_⟩
  · intro t ht
    rw [addTask_tasks_eq] at ht
    rcases List.mem_append.mp ht with h1 | h1
    · exact h t h1
    · rw [List.mem_singleton.mp h1]
      rfl
  · intro t ht
    rcases markDone_tasks_cases tasks tid now werr with hc | hc
    · rw [hc] at ht; exact h t ht
    · rw [hc] at ht
      rcases mem_updateFirst tid (markDoneTask now) tasks t ht with h1 | ⟨u, _, rfl⟩
      · exact h t h1
      · rfl
  · intro t ht
    rcases markUndone_tasks_cases tasks tid now werr with hc | hc
    · rw [hc] at ht; exact h t ht
    · rw [hc] at ht
      rcases mem_updateFirst tid (markUndoneTask now) tasks t ht with h1 | ⟨u, _, rfl⟩
      · exact h t h1
      · rfl

/-- Claim C9, witness: the invariant-preservation theorem applied to a
consistent one-task store. -/
theorem c9_status_done_consistency_witness :
    (∀ t ∈ [sampleA], consistentB t = true)
    ∧ (∀ t ∈ (markDone [sampleA] 1 "u" none).tasks, consistentB t = true) :=
  ⟨by decide, (c9_status_done_consistency [sampleA] "d" "u" 1 none
    (by decide)).2.1⟩

/-- Claim C10: `delete_task` removes every task whose id matches (its
result is the filter keeping the non-matching tasks, so no match remains
and the others are kept as a sublist, i.e. in order), while `mark_done` and
`mark_undone` modify only the first matching task in sequence order: when
the store is `pre ++ t :: post` with no match in `pre` and `t` matching,
the result is `pre` and `post` untouched (even if `post` holds further
tasks with the same id) around the rewritten `t`. -/
theorem c10_delete_all_mark_first
    (tasks : List Task) (tid : Int) (now : String) (werr : Option String) :
    ((deleteTask tasks tid werr).tasks = tasks.filter (fun t => t.id ≠ tid)
     ∧ (∀ t ∈ (deleteTask tasks tid werr).tasks, t.id ≠ tid)
     ∧ (deleteTask tasks tid werr).tasks.Sublist tasks)
    ∧ (∀ (pre : List Task) (t : Task) (post : List Task),
        tasks = pre ++ t :: post → t.id = tid →
        (∀ u ∈ pre, u.id ≠ tid) →
        (markDone tasks tid now werr).tasks
          = pre ++ markDoneTask now t :: post
        ∧ (markUndone tasks tid now werr).tasks
          = pre ++ markUndoneTask now t :: post) := by
  have hdel : (deleteTask tasks tid werr).tasks
      = tasks.filter (fun t => t.id ≠ tid) := by
    unfold deleteTask
    by_cases hc :
        (tasks.filter (fun t => t.id ≠ tid)).length < tasks.length
    · simp only [if_pos hc]
    · simp only [if_neg hc]
  refine ⟨⟨hdel, ?_, ?_⟩, ?_⟩
  · intro t ht
    rw [hdel] at ht
    simpa using List.of_mem_filter ht
  · rw [hdel]
    exact List.filter_sublist _
  · intro pre t post heq ht hpre
    subst heq
    have hfind := findTask_append tid pre t post hpre ht
    constructor
    · show (markDone (pre ++ t :: post) tid now werr).tasks
        = pre ++ markDoneTask now t :: post
      unfold markDone
      rw [hfind]
      exact updateFirst_append tid (markDoneTask now) pre t post hpre ht
    · show (markUndone (pre ++ t :: post) tid now werr).tasks
        = pre ++ markUndoneTask now t :: post
      unfold markUndone
      rw [hfind]
      exact updateFirst_append tid (markUndoneTask now) pre t post hpre ht

/-- Claim C10, witness: on the duplicate-id store `[id 1, id 1, id 2]`,
deleting id 1 yields the filter (which is `[id 2]`), while `mark_done 1`
rewrites only the first id-1 task. -/
theorem c10_delete_all_mark_first_witness :
    (deleteTask [sampleA, sampleB, sampleC] 1 none).tasks
        = [sampleA, sampleB, sampleC].filter (fun t => t.id ≠ 1)
    ∧ [sampleA, sampleB, sampleC].filter (fun t => t.id ≠ 1) = [sampleC]
    ∧ (markDone [sampleA, sampleB, sampleC] 1 "u" none).tasks
        = [] ++ markDoneTask "u" sampleA :: [sampleB, sampleC] :=
  ⟨(c10_delete_all_mark_first [sampleA, sampleB, sampleC] 1 "u" none).1.1,
    by decide,
    ((c10_delete_all_mark_first [sampleA, sampleB, sampleC] 1 "u" none).2
      [] sampleA [sampleB, sampleC] rfl rfl (by decide)).1⟩

end TaskTracker
